import Mathlib

/-!
Verification development for the `claude-hooks` repository.

The core component is the Telegram approval broker
(`src/services/telegram.ts`, function `sendTelegramMessage`), plus the
configuration loader (`src/services/config.ts`).  The TypeScript code is
shallowly embedded here:

* network effects (grammy `bot.api` calls) are recorded as an explicit
  `Action` trace, and their results are supplied by a `World` value
  (getMe success, per-recipient send success, the result of each
  `getUpdates` call, answerCallbackQuery success);
* a JavaScript `RegExp` is an opaque object carrying its `source`, a
  `test` function and a `match` function;
* time is modelled with instantaneous network calls: the only passage of
  time is the inter-poll wait, so at the top of loop iteration `k` the
  elapsed time is `k * pollIntervalMs` (the broker injects its own wait,
  `getUpdates` is called with `timeout: 0`);
* a thrown JS exception is an `Except.error` / a dedicated constructor.
-/

namespace Hooks

/-! ## Data model (src/types/Config.ts, src/services/telegram.ts) -/

/-- `Config` from `src/types/Config.ts`.  `logLevel` is kept as a raw
string because a JSON-parsed object carries no TS type information. -/
structure Config where
  logLevel : String
  logFile : String
  telegramEnabled : Bool
  telegramBotToken : String
  telegramUserIds : List Int
  telegramTimeoutMs : Nat
  telegramPollIntervalMs : Nat
  permissionHookEnabled : Bool
  permissionHookToolsAutoApproved : List String
  permissionHookTimeoutMs : Nat
  permissionHookAllowOnTimeout : Bool
deriving DecidableEq

/-- `DEFAULT_CONFIG` from `src/types/Config.ts`. -/
def DEFAULT_CONFIG : Config :=
  { logLevel := "info"
    logFile := "./logs.log"
    telegramEnabled := false
    telegramBotToken := ""
    telegramUserIds := []
    telegramTimeoutMs := 600000
    telegramPollIntervalMs := 10000
    permissionHookEnabled := false
    permissionHookToolsAutoApproved := []
    permissionHookTimeoutMs := 600000
    permissionHookAllowOnTimeout := false }

/-- A JS `RegExp` object, kept opaque: its `source` text, its `test`
method, and the behaviour of `String.prototype.match` against it
(`some` = a `RegExpMatchArray` of full match and capture groups,
`none` = JS `null`). -/
structure Regex where
  source : String
  test : String → Bool
  rmatch : String → Option (List String)

/-- The TS union `string | RegExp` used for `TelegramCallback.command`. -/
inductive Command where
  | str (s : String)
  | regex (r : Regex)

/-- `TelegramCallbackType` from telegram.ts. -/
inductive TelegramCallbackType where
  | inlineButton
  | hidden
deriving DecidableEq

/-- Argument passed to a callback handler: the raw string for a string
command (or when `match` returned null), or the match array for a regex
command. -/
inductive MatchArg where
  | s (v : String)
  | arr (a : List String)
deriving DecidableEq

/-- `TelegramCallback` from telegram.ts.  The handler may throw, which
is modelled by `Except.error`. -/
structure TelegramCallback where
  type : TelegramCallbackType
  display : Option String
  command : Command
  handler : MatchArg → Except Unit Unit

/-- A callback query (button press) inside a Telegram update. -/
structure CallbackQuery where
  id : String
  from_id : Int
  data : Option String

/-- A text message inside a Telegram update. -/
structure Message where
  from_id : Int
  text : Option String

/-- A Telegram update as consumed by `sendTelegramMessage`. -/
structure Update where
  update_id : Option Nat
  callback_query : Option CallbackQuery
  message : Option Message

/-- One inline-keyboard button (`{ text, callback_data }`). -/
structure Button where
  text : String
  callback_data : String
deriving DecidableEq

/-- Observable network calls made by the broker, in order. -/
inductive Action where
  | getMe
  | sendMessage (userId : Int) (text : String) (kb : List Button)
  | primingFetch
  | fetch (offset : Nat)
  | ackQuery (qid : String) (withText : Bool)
  | handlerRun (idx : Nat) (arg : MatchArg)
  | wait (ms : Nat)
deriving DecidableEq

/-- Result of one call to `sendTelegramMessage`.  `fuelOut` means the
supplied poll trace ended before the run was decided (the real loop
would keep polling). -/
inductive Outcome where
  | success (payload : String)
  | tooLong (len : Nat)
  | authError
  | deliveryError (userId : Int)
  | timeout (elapsedMs : Nat)
  | fuelOut
deriving DecidableEq

/-- The environment's responses to the broker's network calls. -/
structure World where
  getMeOk : Bool
  sendOk : Int → Bool
  priming : Except Unit (List Update)
  polls : List (Except Unit (List Update))
  ackOk : String → Bool

/-! ## The broker (src/services/telegram.ts) -/

/-- telegram.ts line 8. -/
def TELEGRAM_MAX_LENGTH : Nat := 4096

/-- `validateMessageLength` (telegram.ts lines 20-26). -/
def validateMessageLength (message : String) : Except String Unit :=
  if message.length > TELEGRAM_MAX_LENGTH then
    .error "Message length exceeds Telegram maximum"
  else
    .ok ()

/-- `callback_data` for a command: the string itself or the regex
source (telegram.ts line 67). -/
def commandSource : Command → String
  | .str s => s
  | .regex r => r.source

/-- Inline keyboard built from the `inline-button` callbacks
(telegram.ts lines 63-68); `cb.display || ""` maps a missing or empty
display to `""`. -/
def buildKeyboard (callbacks : List TelegramCallback) : List Button :=
  (callbacks.filter (fun cb => cb.type == .inlineButton)).map
    (fun cb => { text := cb.display.getD "", callback_data := commandSource cb.command })

/-- The send loop over `config.telegramUserIds` (telegram.ts lines
71-83): each attempted `sendMessage` is recorded; the first failure
aborts the exchange with that user's id. -/
def sendToAllUsers (text : String) (kb : List Button) (sendOk : Int → Bool) :
    List Int → Except (Int × List Action) (List Action)
  | [] => .ok []
  | uid :: rest =>
    if sendOk uid then
      match sendToAllUsers text kb sendOk rest with
      | .ok acts => .ok (.sendMessage uid text kb :: acts)
      | .error p => .error (p.1, .sendMessage uid text kb :: p.2)
    else
      .error (uid, [.sendMessage uid text kb])

/-- Cursor priming (telegram.ts lines 89-109): the baseline is the
`update_id` of the last update of the drained queue, falling back to 0
when the fetch fails, the queue is empty, or that id is undefined. -/
def primeCursor : Except Unit (List Update) → Nat
  | .error _ => 0
  | .ok oldUpdates =>
    match oldUpdates.getLast? with
    | some lastUpdate =>
      match lastUpdate.update_id with
      | some uid => uid
      | none => 0
    | none => 0

/-- The `find` predicate for callback queries (telegram.ts lines
155-162): only `inline-button` callbacks are considered. -/
def cbMatchesCallback (data : String) (cb : TelegramCallback) : Bool :=
  match cb.type with
  | .hidden => false
  | .inlineButton =>
    match cb.command with
    | .str s => s == data
    | .regex r => r.test data

/-- The `find` predicate for text messages (telegram.ts lines 200-206):
every callback is considered, whatever its type. -/
def cbMatchesText (text : String) (cb : TelegramCallback) : Bool :=
  match cb.command with
  | .str s => text == s
  | .regex r => r.test text

/-- `Array.prototype.find` returning the index as well. -/
def findWithIdx (p : α → Bool) (i : Nat) : List α → Option (Nat × α)
  | [] => none
  | x :: xs => if p x then some (i, x) else findWithIdx p (i + 1) xs

/-- `match || raw` (telegram.ts lines 173-176, 212-215): a string
command passes the raw input; a regex command passes the match array,
or the raw input if `match` returned null. -/
def matchArgOf (cmd : Command) (input : String) : MatchArg :=
  match cmd with
  | .str _ => .s input
  | .regex r =>
    match r.rmatch input with
    | some a => .arr a
    | none => .s input

/-- What handling one update does next. -/
inductive StepResult where
  | resolved (v : String)
  | thrown
  | next
deriving DecidableEq

/-- Outcome of the callback-query branch of the update loop:
`skip` is a `continue` (the message branch is not reached),
`fallThrough` proceeds to the message branch. -/
inductive CbResult where
  | resolved (v : String)
  | thrown
  | skip
  | fallThrough
deriving DecidableEq

/-- The callback-query branch (telegram.ts lines 141-184).  Note that
`if (!callbackData) continue` skips an absent or empty payload, and that
`answerCallbackQuery` is awaited before the handler runs; a throw from
either escapes to the poll loop's catch (`thrown`). -/
def handleCallbackBranch (C : List TelegramCallback) (U : List Int) (A : String → Bool)
    (q : CallbackQuery) : List Action × CbResult :=
  if ¬ U.contains q.from_id then ([], .skip)
  else
    match q.data with
    | none => ([], .skip)
    | some d =>
      if d = "" then ([], .skip)
      else
        match findWithIdx (cbMatchesCallback d) 0 C with
        | some (i, cb) =>
          if A q.id then
            match cb.handler (matchArgOf cb.command d) with
            | .ok _ =>
              ([.ackQuery q.id true, .handlerRun i (matchArgOf cb.command d)], .resolved d)
            | .error _ =>
              ([.ackQuery q.id true, .handlerRun i (matchArgOf cb.command d)], .thrown)
          else ([.ackQuery q.id true], .thrown)
        | none =>
          if A q.id then ([.ackQuery q.id false], .fallThrough)
          else ([.ackQuery q.id false], .thrown)

/-- The text-message branch (telegram.ts lines 187-222).  An absent or
empty `text` fails the truthiness guard and is skipped. -/
def handleMessagePart (C : List TelegramCallback) (U : List Int) :
    Option Message → List Action × StepResult
  | none => ([], .next)
  | some m =>
    match m.text with
    | none => ([], .next)
    | some t =>
      if t = "" then ([], .next)
      else if ¬ U.contains m.from_id then ([], .next)
      else
        match findWithIdx (cbMatchesText t) 0 C with
        | some (i, cb) =>
          match cb.handler (matchArgOf cb.command t) with
          | .ok _ => ([.handlerRun i (matchArgOf cb.command t)], .resolved t)
          | .error _ => ([.handlerRun i (matchArgOf cb.command t)], .thrown)
        | none => ([], .next)

/-- Processing of one update, minus the cursor write (telegram.ts lines
134-222): the callback branch runs first; only its unmatched-but-acked
case falls through to the message branch. -/
def processUpdateCore (C : List TelegramCallback) (U : List Int) (A : String → Bool)
    (u : Update) : List Action × StepResult :=
  match u.callback_query with
  | none => handleMessagePart C U u.message
  | some q =>
    match handleCallbackBranch C U A q with
    | (acts, .resolved v) => (acts, .resolved v)
    | (acts, .thrown) => (acts, .thrown)
    | (acts, .skip) => (acts, .next)
    | (acts, .fallThrough) =>
      let r := handleMessagePart C U u.message
      (acts ++ r.1, r.2)

/-- The `for (const update of updates)` loop (telegram.ts lines
134-223).  The cursor advances to each update's id before any other
handling; a resolution returns immediately; a throw abandons the rest
of the batch (it is caught at line 224). -/
def processBatch (C : List TelegramCallback) (U : List Int) (A : String → Bool) :
    Nat → List Update → Nat × List Action × Option String
  | lastId, [] => (lastId, [], none)
  | lastId, u :: rest =>
    let lastId1 := (u.update_id).getD lastId
    let pr := processUpdateCore C U A u
    match pr.2 with
    | .resolved v => (lastId1, pr.1, some v)
    | .thrown => (lastId1, pr.1, none)
    | .next =>
      let b := processBatch C U A lastId1 rest
      (b.1, pr.1 ++ b.2.1, b.2.2)

/-- The `while (true)` poll loop (telegram.ts lines 111-230), iteration
counter `k` (elapsed time is `k * p`).  The deadline check runs at the
top of every iteration, before the fetch; a failed fetch is treated as
an empty batch; every non-returning iteration ends with a wait. -/
def loopRun (C : List TelegramCallback) (U : List Int) (A : String → Bool)
    (D p : Nat) : List (Except Unit (List Update)) → Nat → Nat → Outcome × List Action
  | polls, k, lastId =>
    if 0 < D ∧ D ≤ k * p then (.timeout (k * p), [])
    else
      match polls with
      | [] => (.fuelOut, [])
      | .error _ :: rest =>
        let r := loopRun C U A D p rest (k + 1) lastId
        (r.1, .fetch (lastId + 1) :: .wait p :: r.2)
      | .ok updates :: rest =>
        let b := processBatch C U A lastId updates
        match b.2.2 with
        | some v => (.success v, .fetch (lastId + 1) :: b.2.1)
        | none =>
          let r := loopRun C U A D p rest (k + 1) b.1
          (r.1, .fetch (lastId + 1) :: (b.2.1 ++ .wait p :: r.2))

/-- A poll batch that can never resolve the exchange (resolution does
not depend on the incoming cursor value, see
`processBatch_snd_independent`). -/
def pollNoResolve (C : List TelegramCallback) (U : List Int) (A : String → Bool) :
    Except Unit (List Update) → Bool
  | .error _ => true
  | .ok us => (processBatch C U A 0 us).2.2 == none

/-- Number of `getUpdates` polls recorded in a trace. -/
def countFetch : List Action → Nat
  | [] => 0
  | .fetch _ :: r => countFetch r + 1
  | _ :: r => countFetch r

/-- `sendTelegramMessage` (telegram.ts lines 45-231). -/
def sendTelegramMessage (textToSend : String) (callbacks : List TelegramCallback)
    (config : Config) (w : World) : Outcome × List Action :=
  match validateMessageLength textToSend with
  | .error _ => (.tooLong textToSend.length, [])
  | .ok _ =>
    let pollIntervalMs := max config.telegramPollIntervalMs 1000
    if ¬ w.getMeOk then (.authError, [.getMe])
    else
      let inlineKeyboard := buildKeyboard callbacks
      match sendToAllUsers textToSend inlineKeyboard w.sendOk config.telegramUserIds with
      | .error p => (.deliveryError p.1, .getMe :: p.2)
      | .ok sendActs =>
        let lastUpdateId := primeCursor w.priming
        let r := loopRun callbacks config.telegramUserIds w.ackOk
          config.telegramTimeoutMs pollIntervalMs w.polls 0 lastUpdateId
        (r.1, .getMe :: (sendActs ++ .primingFetch :: r.2))

/-! ## Configuration loader (src/services/config.ts) -/

/-- The state of `./config.json` as seen by `loadConfig`: absent,
readable-but-throwing (`file.text()` fails), readable but not valid
JSON (`JSON.parse` throws), or parsed to a `Config`-shaped object
(string fields may be empty, which is how a missing/falsy `logLevel`
or `logFile` appears after the cast). -/
inductive ConfigFile where
  | absent
  | unreadable
  | unparsable
  | parsed (c : Config)

/-- `loadConfig` (config.ts lines 11-45) as a state transformer over the
module-level `cachedConfig`: returns the result and the new cache.
Every failure path (missing file, read error, parse error, missing
required fields) is caught and falls back to a copy of
`DEFAULT_CONFIG`. -/
def loadConfig (file : ConfigFile) (cachedConfig : Option Config) : Config × Option Config :=
  match cachedConfig with
  | some c => (c, some c)
  | none =>
    match file with
    | .absent => (DEFAULT_CONFIG, some DEFAULT_CONFIG)
    | .unreadable => (DEFAULT_CONFIG, some DEFAULT_CONFIG)
    | .unparsable => (DEFAULT_CONFIG, some DEFAULT_CONFIG)
    | .parsed c =>
      if c.logLevel = "" ∨ c.logFile = "" then (DEFAULT_CONFIG, some DEFAULT_CONFIG)
      else (c, some c)

/-- `clearConfigCache` (config.ts lines 50-52). -/
def clearConfigCache (_cachedConfig : Option Config) : Option Config := none

/-! ## Concrete inputs used by witnesses and counterexamples -/

/-- A message one character over the Telegram limit. -/
def longText : String := String.mk (List.replicate 4097 'a')

/-- An environment in which every network call succeeds and nothing
ever arrives. -/
def quietWorld : World :=
  { getMeOk := true
    sendOk := fun _ => true
    priming := .ok []
    polls := []
    ackOk := fun _ => true }

/-- Configuration with one authorized user (42), a 1.5 s deadline and a
1 s poll interval. -/
def cfg1500 : Config :=
  { DEFAULT_CONFIG with
      telegramUserIds := [42]
      telegramTimeoutMs := 1500
      telegramPollIntervalMs := 1000 }

/-- Configuration with one authorized user (42) and a 1 s deadline and
poll interval. -/
def cfg1000 : Config :=
  { DEFAULT_CONFIG with
      telegramUserIds := [42]
      telegramTimeoutMs := 1000
      telegramPollIntervalMs := 1000 }

/-- An interactive "Yes" button command whose handler throws. -/
def yesThrowingCb : TelegramCallback :=
  { type := .inlineButton
    display := some "Yes"
    command := .str "/yes-123"
    handler := fun _ => .error () }

/-- An interactive "Yes" button command with a succeeding handler. -/
def yesCb : TelegramCallback :=
  { type := .inlineButton
    display := some "Yes"
    command := .str "/yes-123"
    handler := fun _ => .ok () }

/-- A second interactive command whose exact-string pattern also equals
"/yes-123", to exercise overlap resolution. -/
def yesShadowCb : TelegramCallback :=
  { type := .inlineButton
    display := some "Also yes"
    command := .str "/yes-123"
    handler := fun _ => .ok () }

/-- A button press of "/yes-123" by authorized user 42. -/
def yesPress : Update :=
  { update_id := some 7
    callback_query := some { id := "q1", from_id := 42, data := some "/yes-123" }
    message := none }

/-- A button press with an empty payload by authorized user 42. -/
def emptyPress : Update :=
  { update_id := some 8
    callback_query := some { id := "q2", from_id := 42, data := some "" }
    message := none }

/-- A button press of "/yes-123" by unauthorized user 99. -/
def strangerPress : Update :=
  { update_id := some 9
    callback_query := some { id := "q3", from_id := 99, data := some "/yes-123" }
    message := none }

/-- A text message "/yes-123" from unauthorized user 99. -/
def strangerText : Update :=
  { update_id := some 10
    callback_query := none
    message := some { from_id := 99, text := some "/yes-123" } }

/-- A button press of "/other" (matching no command) by user 42. -/
def otherPress : Update :=
  { update_id := some 11
    callback_query := some { id := "q4", from_id := 42, data := some "/other" }
    message := none }

/-- `String.prototype.match` against the regex `/^\/block\s+(.+)$/`,
modelled concretely: the input must start with "/block" followed by at
least one space; the greedy `\s+` swallows the spaces and the capture
group is the (necessarily non-empty) remainder. -/
def blockMatch (s : String) : Option (List String) :=
  match s.data with
  | '/' :: 'b' :: 'l' :: 'o' :: 'c' :: 'k' :: ' ' :: rest =>
    let rest2 := rest.dropWhile (fun c => c == ' ')
    if rest2.isEmpty then none else some [s, String.mk rest2]
  | _ => none

/-- The regex object `/^\/block\s+(.+)$/` of spec scenario 105. -/
def blockRegex : Regex :=
  { source := "^\\/block\\s+(.+)$"
    test := fun s => (blockMatch s).isSome
    rmatch := blockMatch }

/-- A passive command on `blockRegex` with a succeeding handler. -/
def blockCb : TelegramCallback :=
  { type := .hidden
    display := none
    command := .regex blockRegex
    handler := fun _ => .ok () }

/-- The text message "/block bad idea" from authorized user 42. -/
def blockText : Update :=
  { update_id := some 12
    callback_query := none
    message := some { from_id := 42, text := some "/block bad idea" } }

/-- Two stale updates whose ids arrive out of order (so that the last
one is not the highest). -/
def staleHigh : Update :=
  { update_id := some 5, callback_query := none, message := none }

/-- See `staleHigh`. -/
def staleLow : Update :=
  { update_id := some 3, callback_query := none, message := none }

/-- A stale update carrying no id. -/
def staleNoId : Update :=
  { update_id := none, callback_query := none, message := none }

/-- A parsed config object whose `logLevel` is falsy (missing/empty in
the JSON). -/
def badConfig : Config := { DEFAULT_CONFIG with logLevel := "" }

/-! ## Helper lemmas -/

theorem longText_length : longText.length = 4097 := by
  show (List.replicate 4097 'a').length = 4097
  exact List.length_replicate 4097 'a'

/-- `findWithIdx` returns the first element satisfying the predicate,
together with its index. -/
theorem findWithIdx_spec {α : Type} (p : α → Bool) :
    ∀ (l : List α) (s i : Nat) (x : α), findWithIdx p s l = some (i, x) →
      s ≤ i ∧ l.get? (i - s) = some x ∧ p x = true ∧
        ∀ k, k < i - s → ∀ y, l.get? k = some y → p y = false := by
  intro l
  induction l with
  | nil => intro s i x h; simp [findWithIdx] at h
  | cons a t ih =>
    intro s i x h
    cases hp : p a with
    | true =>
      simp [findWithIdx, hp] at h
      obtain ⟨hi, hx⟩ := h
      subst hi; subst hx
      refine ⟨le_refl _, by simp, hp, ?_⟩
      intro k hk
      omega
    | false =>
      simp only [findWithIdx, hp, Bool.false_eq_true, if_false] at h
      obtain ⟨hs, hget, hpx, hrest⟩ := ih (s + 1) i x h
      refine ⟨by omega, ?_, hpx, ?_⟩
      · have he : i - s = (i - (s + 1)) + 1 := by omega
        rw [he]
        simpa using hget
      · intro k hk y hy
        cases k with
        | zero =>
          simp at hy
          subst hy
          exact hp
        | succ j =>
          have hj : j < i - (s + 1) := by omega
          exact hrest j hj y (by simpa using hy)

/-- The actions and resolution of a batch do not depend on the incoming
cursor value (only the outgoing cursor does). -/
theorem processBatch_snd_independent (C : List TelegramCallback) (U : List Int)
    (A : String → Bool) (us : List Update) :
    ∀ l1 l2 : Nat, (processBatch C U A l1 us).2 = (processBatch C U A l2 us).2 := by
  induction us with
  | nil => intro l1 l2; rfl
  | cons u rest ih =>
    intro l1 l2
    simp only [processBatch]
    cases hpr : (processUpdateCore C U A u).2 with
    | resolved v => simp [hpr]
    | thrown => simp [hpr]
    | next =>
      simp only [hpr]
      rw [ih ((u.update_id).getD l1) ((u.update_id).getD l2)]

/-- When every delivery succeeds, the send loop succeeds and attempts
one send per recipient, in order. -/
theorem sendToAllUsers_ok (text : String) (kb : List Button) (sendOk : Int → Bool) :
    ∀ uids : List Int, (∀ uid ∈ uids, sendOk uid = true) →
      sendToAllUsers text kb sendOk uids =
        .ok (uids.map (fun uid => .sendMessage uid text kb)) := by
  intro uids
  induction uids with
  | nil => intro _; rfl
  | cons uid rest ih =>
    intro h
    have huid : sendOk uid = true := h uid (List.mem_cons_self uid rest)
    have hrest : ∀ v ∈ rest, sendOk v = true := fun v hv => h v (List.mem_cons_of_mem uid hv)
    simp [sendToAllUsers, huid, ih hrest]

theorem countFetch_append (xs ys : List Action) :
    countFetch (xs ++ ys) = countFetch xs + countFetch ys := by
  induction xs with
  | nil => simp [countFetch]
  | cons a t ih =>
    cases a
    all_goals simp [countFetch, ih]
    all_goals omega

/-- The callback branch performs no `getUpdates` call. -/
theorem handleCallbackBranch_no_fetch (C : List TelegramCallback) (U : List Int)
    (A : String → Bool) (q : CallbackQuery) :
    countFetch (handleCallbackBranch C U A q).1 = 0 := by
  unfold handleCallbackBranch
  split
  · rfl
  · split
    · rfl
    · split
      · rfl
      · split
        · split
          · split <;> rfl
          · rfl
        · split <;> rfl

/-- The message branch performs no `getUpdates` call. -/
theorem handleMessagePart_no_fetch (C : List TelegramCallback) (U : List Int)
    (om : Option Message) :
    countFetch (handleMessagePart C U om).1 = 0 := by
  unfold handleMessagePart
  split
  · rfl
  · split
    · rfl
    · split
      · rfl
      · split
        · rfl
        · split
          · split <;> rfl
          · rfl

/-- Handling one update performs no `getUpdates` call. -/
theorem processUpdateCore_no_fetch (C : List TelegramCallback) (U : List Int)
    (A : String → Bool) (u : Update) :
    countFetch (processUpdateCore C U A u).1 = 0 := by
  unfold processUpdateCore
  split
  · exact handleMessagePart_no_fetch C U _
  · rename_i q hq
    rcases hh : handleCallbackBranch C U A q with ⟨acts, r⟩
    have hcb := handleCallbackBranch_no_fetch C U A q
    rw [hh] at hcb
    simp only [hh]
    cases r <;> simp [countFetch_append, hcb, handleMessagePart_no_fetch]

/-- A batch performs no `getUpdates` call. -/
theorem processBatch_no_fetch (C : List TelegramCallback) (U : List Int)
    (A : String → Bool) (us : List Update) :
    ∀ lastId, countFetch (processBatch C U A lastId us).2.1 = 0 := by
  induction us with
  | nil => intro l; rfl
  | cons u rest ih =>
    intro l
    simp only [processBatch]
    cases hpr : (processUpdateCore C U A u).2 with
    | resolved v =>
      have := processUpdateCore_no_fetch C U A u
      simp [this]
    | thrown =>
      have := processUpdateCore_no_fetch C U A u
      simp [this]
    | next =>
      simp only [countFetch_append, processUpdateCore_no_fetch C U A u, ih]

/-- If no supplied poll batch can resolve the exchange, the poll loop
times out at the first iteration `K` whose elapsed time `K * p` reaches
the deadline `D`, having fetched exactly `K - k` more batches (the
deadline check runs before the fetch). -/
theorem loopRun_times_out (C : List TelegramCallback) (U : List Int) (A : String → Bool)
    (D p : Nat) :
    ∀ (polls : List (Except Unit (List Update))) (k lastId : Nat),
      0 < D →
      (∀ b ∈ polls, pollNoResolve C U A b = true) →
      D ≤ (k + polls.length) * p →
      (k = 0 ∨ (k - 1) * p < D) →
      ∃ K : Nat, k ≤ K ∧
        (loopRun C U A D p polls k lastId).1 = .timeout (K * p) ∧
        D ≤ K * p ∧ K * p < D + p ∧
        countFetch (loopRun C U A D p polls k lastId).2 = K - k := by
  intro polls
  induction polls with
  | nil =>
    intro k lastId hD hnr hlen hinv
    simp only [List.length_nil, Nat.add_zero] at hlen
    have hub : k * p < D + p := by
      rcases hinv with h0 | hlt
      · subst h0
        simp at hlen
        omega
      · cases k with
        | zero => simp; omega
        | succ j =>
          have hsm : (j + 1) * p = j * p + p := Nat.succ_mul j p
          have hj : j + 1 - 1 = j := rfl
          rw [hj] at hlt
          rw [hsm]
          omega
    have hcond : 0 < D ∧ D ≤ k * p := ⟨hD, hlen⟩
    refine ⟨k, le_refl k, ?_, hlen, hub, ?_⟩
    · simp [loopRun, hcond]
    · simp [loopRun, hcond, countFetch]
  | cons b rest ih =>
    intro k lastId hD hnr hlen hinv
    by_cases hstop : D ≤ k * p
    · have hub : k * p < D + p := by
        rcases hinv with h0 | hlt
        · subst h0
          simp at hstop
          omega
        · cases k with
          | zero => simp; omega
          | succ j =>
            have hsm : (j + 1) * p = j * p + p := Nat.succ_mul j p
            have hj : j + 1 - 1 = j := rfl
            rw [hj] at hlt
            rw [hsm]
            omega
      have hcond : 0 < D ∧ D ≤ k * p := ⟨hD, hstop⟩
      refine ⟨k, le_refl k, ?_, hstop, hub, ?_⟩
      · cases b <;> simp [loopRun, hcond]
      · cases b <;> simp [loopRun, hcond, countFetch]
    · have hcond : ¬ (0 < D ∧ D ≤ k * p) := fun hh => hstop hh.2
      have hnr_rest : ∀ x ∈ rest, pollNoResolve C U A x = true :=
        fun x hx => hnr x (List.mem_cons_of_mem b hx)
      have hlen1 : D ≤ ((k + 1) + rest.length) * p := by
        have he : k + (b :: rest).length = (k + 1) + rest.length := by
          simp [List.length_cons]
          omega
        rw [← he]
        exact hlen
      have hinv1 : (k + 1) = 0 ∨ ((k + 1) - 1) * p < D := by
        right
        have hj : k + 1 - 1 = k := rfl
        rw [hj]
        omega
      cases b with
      | error e =>
        obtain ⟨K, hkK, hout, hDK, hKb, hcf⟩ := ih (k + 1) lastId hD hnr_rest hlen1 hinv1
        refine ⟨K, by omega, ?_, hDK, hKb, ?_⟩
        · simp only [loopRun, if_neg hcond]
          exact hout
        · simp only [loopRun, if_neg hcond, countFetch]
          omega
      | ok us =>
        have hres : (processBatch C U A lastId us).2.2 = none := by
          have hb := hnr (.ok us) (List.mem_cons_self _ _)
          simp only [pollNoResolve, beq_iff_eq] at hb
          have hind := processBatch_snd_independent C U A us lastId 0
          have : (processBatch C U A lastId us).2.2 = (processBatch C U A 0 us).2.2 :=
            congrArg Prod.snd hind
          rw [this]
          exact hb
        obtain ⟨K, hkK, hout, hDK, hKb, hcf⟩ :=
          ih (k + 1) ((processBatch C U A lastId us).1) hD hnr_rest hlen1 hinv1
        refine ⟨K, by omega, ?_, hDK, hKb, ?_⟩
        · simp only [loopRun, if_neg hcond, hres]
          exact hout
        · simp only [loopRun, if_neg hcond, hres, countFetch, countFetch_append,
            processBatch_no_fetch]
          omega

theorem countFetch_map_send (text : String) (kb : List Button) :
    ∀ uids : List Int,
      countFetch (uids.map (fun uid => Action.sendMessage uid text kb)) = 0 := by
  intro uids
  induction uids with
  | nil => rfl
  | cons uid rest ih => simpa [countFetch] using ih

/-- Inversion: a callback-query branch that resolves did so on an
authorized, non-empty payload, acknowledged the query first and ran the
first matching interactive command's handler. -/
theorem handleCallbackBranch_resolved (C : List TelegramCallback) (U : List Int)
    (A : String → Bool) (q : CallbackQuery) (acts : List Action) (v : String)
    (h : handleCallbackBranch C U A q = (acts, .resolved v)) :
    q.from_id ∈ U ∧ q.data = some v ∧ v ≠ "" ∧
      ∃ i cb, findWithIdx (cbMatchesCallback v) 0 C = some (i, cb) ∧
        A q.id = true ∧ cb.handler (matchArgOf cb.command v) = .ok () ∧
        acts = [.ackQuery q.id true, .handlerRun i (matchArgOf cb.command v)] := by
  by_cases hauth : q.from_id ∈ U
  case neg => simp [handleCallbackBranch, hauth] at h
  case pos =>
    cases hdata : q.data with
    | none => simp [handleCallbackBranch, hauth, hdata] at h
    | some d =>
      by_cases hne : d = ""
      · simp [handleCallbackBranch, hauth, hdata, hne] at h
      · cases hfind : findWithIdx (cbMatchesCallback d) 0 C with
        | none =>
          cases hack : A q.id with
          | true => simp [handleCallbackBranch, hauth, hdata, hne, hfind, hack] at h
          | false => simp [handleCallbackBranch, hauth, hdata, hne, hfind, hack] at h
        | some pr =>
          obtain ⟨i, cb⟩ := pr
          cases hack : A q.id with
          | false => simp [handleCallbackBranch, hauth, hdata, hne, hfind, hack] at h
          | true =>
            cases hh : cb.handler (matchArgOf cb.command d) with
            | error u =>
              simp [handleCallbackBranch, hauth, hdata, hne, hfind, hack, hh] at h
            | ok u =>
              simp [handleCallbackBranch, hauth, hdata, hne, hfind, hack, hh] at h
              obtain ⟨hacts, hv⟩ := h
              subst hv
              exact ⟨hauth, rfl, hne, i, cb, hfind, rfl, hh, hacts.symm⟩

/-- Inversion: a message branch that resolves did so on a non-empty
text from an authorized sender, running the first matching command's
handler. -/
theorem handleMessagePart_resolved (C : List TelegramCallback) (U : List Int)
    (om : Option Message) (acts : List Action) (v : String)
    (h : handleMessagePart C U om = (acts, .resolved v)) :
    ∃ m, om = some m ∧ m.text = some v ∧ v ≠ "" ∧ m.from_id ∈ U ∧
      ∃ i cb, findWithIdx (cbMatchesText v) 0 C = some (i, cb) ∧
        cb.handler (matchArgOf cb.command v) = .ok () ∧
        acts = [.handlerRun i (matchArgOf cb.command v)] := by
  cases om with
  | none => simp [handleMessagePart] at h
  | some m =>
    cases htext : m.text with
    | none => simp [handleMessagePart, htext] at h
    | some t =>
      by_cases hte : t = ""
      · simp [handleMessagePart, htext, hte] at h
      · by_cases hauth : m.from_id ∈ U
        case neg => simp [handleMessagePart, htext, hte, hauth] at h
        case pos =>
          cases hfind : findWithIdx (cbMatchesText t) 0 C with
          | none => simp [handleMessagePart, htext, hte, hauth, hfind] at h
          | some pr =>
            obtain ⟨i, cb⟩ := pr
            cases hh : cb.handler (matchArgOf cb.command t) with
            | error u => simp [handleMessagePart, htext, hte, hauth, hfind, hh] at h
            | ok u =>
              simp [handleMessagePart, htext, hte, hauth, hfind, hh] at h
              obtain ⟨hacts, hv⟩ := h
              subst hv
              exact ⟨m, rfl, htext, hte, hauth, i, cb, hfind, hh, hacts.symm⟩

/-! ## Claim theorems -/

/-- C4: when several commands match the same incoming payload (button
press) or text, the first matching command in declaration order is
selected: its handler fires, its match governs the resolution, the raw
input is the returned payload, and no error is raised for the
overlap. -/
theorem first_match_wins (C : List TelegramCallback) (U : List Int) (A : String → Bool)
    (q : CallbackQuery) (m : Message) (d t : String) (i j : Nat)
    (cbi cbj : TelegramCallback) :
    (q.from_id ∈ U → q.data = some d → d ≠ "" →
      findWithIdx (cbMatchesCallback d) 0 C = some (i, cbi) →
      A q.id = true → cbi.handler (matchArgOf cbi.command d) = .ok () →
      handleCallbackBranch C U A q =
        ([.ackQuery q.id true, .handlerRun i (matchArgOf cbi.command d)], .resolved d) ∧
      cbMatchesCallback d cbi = true ∧
      ∀ k y, k < i → C.get? k = some y → cbMatchesCallback d y = false) ∧
    (m.text = some t → t ≠ "" → m.from_id ∈ U →
      findWithIdx (cbMatchesText t) 0 C = some (j, cbj) →
      cbj.handler (matchArgOf cbj.command t) = .ok () →
      handleMessagePart C U (some m) =
        ([.handlerRun j (matchArgOf cbj.command t)], .resolved t) ∧
      cbMatchesText t cbj = true ∧
      ∀ k y, k < j → C.get? k = some y → cbMatchesText t y = false) := by
  constructor
  · intro hauth hdata hne hfind hack hh
    obtain ⟨hs, hget, hp, hfirst⟩ := findWithIdx_spec (cbMatchesCallback d) C 0 i cbi hfind
    refine ⟨?_, hp, ?_⟩
    · simp [handleCallbackBranch, hauth, hdata, hne, hfind, hack, hh]
    · intro k y hk hy
      exact hfirst k (by omega) y hy
  · intro htext hte hauth hfind hh
    obtain ⟨hs, hget, hp, hfirst⟩ := findWithIdx_spec (cbMatchesText t) C 0 j cbj hfind
    refine ⟨?_, hp, ?_⟩
    · simp [handleMessagePart, htext, hte, hauth, hfind, hh]
    · intro k y hk hy
      exact hfirst k (by omega) y hy

/-- Witness for `first_match_wins`: two commands both carry the exact
pattern "/yes-123"; on the button press and on the text message the
first (index 0) is selected. -/
theorem first_match_wins_witness :
    (handleCallbackBranch [yesCb, yesShadowCb] [42] (fun _ => true)
        { id := "q1", from_id := 42, data := some "/yes-123" } =
      ([.ackQuery "q1" true, .handlerRun 0 (matchArgOf yesCb.command "/yes-123")],
        .resolved "/yes-123") ∧
      cbMatchesCallback "/yes-123" yesCb = true) ∧
    (handleMessagePart [yesCb, yesShadowCb] [42]
        (some { from_id := 42, text := some "/yes-123" }) =
      ([.handlerRun 0 (matchArgOf yesCb.command "/yes-123")], .resolved "/yes-123") ∧
      cbMatchesText "/yes-123" yesCb = true) := by
  have h := first_match_wins [yesCb, yesShadowCb] [42] (fun _ => true)
    { id := "q1", from_id := 42, data := some "/yes-123" }
    { from_id := 42, text := some "/yes-123" } "/yes-123" "/yes-123" 0 0 yesCb yesCb
  obtain ⟨h1, h2⟩ := h
  obtain ⟨ha, hb, -⟩ := h1 (by decide) rfl (by decide) rfl rfl rfl
  obtain ⟨hc, hd, -⟩ := h2 rfl (by decide) (by decide) rfl rfl
  exact ⟨⟨ha, hb⟩, hc, hd⟩

/-- C5: an event from a recipient outside the authorized set never
triggers a match, runs no handler and does not resolve the exchange —
it is silently discarded — while its identifier still advances the
cursor. -/
theorem unauthorized_ignored (C : List TelegramCallback) (U : List Int) (A : String → Bool)
    (u : Update) (q : CallbackQuery) (m : Message) (lastId : Nat) :
    ((u.callback_query = some q → q.from_id ∉ U →
        processUpdateCore C U A u = ([], .next)) ∧
      (u.callback_query = none → u.message = some m → m.from_id ∉ U →
        processUpdateCore C U A u = ([], .next))) ∧
      (processBatch C U A lastId [u]).1 = (u.update_id).getD lastId := by
  refine ⟨⟨?_, ?_⟩, ?_⟩
  · intro hq hauth
    simp [processUpdateCore, hq, handleCallbackBranch, hauth]
  · intro hq hm hauth
    cases htext : m.text with
    | none => simp [processUpdateCore, hq, hm, handleMessagePart, htext]
    | some t =>
      by_cases hte : t = ""
      · simp [processUpdateCore, hq, hm, handleMessagePart, htext, hte]
      · simp [processUpdateCore, hq, hm, handleMessagePart, htext, hte, hauth]
  · simp only [processBatch]
    cases hpr : (processUpdateCore C U A u).2 <;> simp [hpr, processBatch]

/-- Witness for `unauthorized_ignored`: the press and the text message
of "/yes-123" by user 99 (not in the set {42}) are discarded although
the payload matches the command exactly; the press's id 9 still
advances the cursor. -/
theorem unauthorized_ignored_witness :
    (processUpdateCore [yesCb] [42] (fun _ => true) strangerPress = ([], .next) ∧
      processUpdateCore [yesCb] [42] (fun _ => true) strangerText = ([], .next)) ∧
    (processBatch [yesCb] [42] (fun _ => true) 0 [strangerPress]).1 = 9 := by
  have h1 := unauthorized_ignored [yesCb] [(42 : Int)] (fun _ => true) strangerPress
    { id := "q3", from_id := 99, data := some "/yes-123" } { from_id := 0, text := none } 0
  have h2 := unauthorized_ignored [yesCb] [(42 : Int)] (fun _ => true) strangerText
    { id := "q0", from_id := 0, data := none } { from_id := 99, text := some "/yes-123" } 0
  refine ⟨⟨h1.1.1 rfl (by decide), h2.1.2 rfl rfl (by decide)⟩, ?_⟩
  simpa using h1.2

/-- Exhaustive shape of the callback branch's action list: empty, a
lone acknowledgement, or an acknowledgement followed by the handler
run. -/
theorem handleCallbackBranch_shape (C : List TelegramCallback) (U : List Int)
    (A : String → Bool) (q : CallbackQuery) :
    handleCallbackBranch C U A q = ([], .skip) ∨
    handleCallbackBranch C U A q = ([.ackQuery q.id false], .fallThrough) ∨
    handleCallbackBranch C U A q = ([.ackQuery q.id false], .thrown) ∨
    handleCallbackBranch C U A q = ([.ackQuery q.id true], .thrown) ∨
    (∃ i arg d, handleCallbackBranch C U A q =
      ([.ackQuery q.id true, .handlerRun i arg], .resolved d)) ∨
    (∃ i arg, handleCallbackBranch C U A q =
      ([.ackQuery q.id true, .handlerRun i arg], .thrown)) := by
  by_cases hauth : q.from_id ∈ U
  case neg => exact Or.inl (by simp [handleCallbackBranch, hauth])
  case pos =>
    cases hdata : q.data with
    | none => exact Or.inl (by simp [handleCallbackBranch, hauth, hdata])
    | some d =>
      by_cases hne : d = ""
      · exact Or.inl (by simp [handleCallbackBranch, hauth, hdata, hne])
      · cases hfind : findWithIdx (cbMatchesCallback d) 0 C with
        | none =>
          cases hack : A q.id with
          | true =>
            exact Or.inr (Or.inl
              (by simp [handleCallbackBranch, hauth, hdata, hne, hfind, hack]))
          | false =>
            exact Or.inr (Or.inr (Or.inl
              (by simp [handleCallbackBranch, hauth, hdata, hne, hfind, hack])))
        | some pr =>
          obtain ⟨i, cb⟩ := pr
          cases hack : A q.id with
          | false =>
            exact Or.inr (Or.inr (Or.inr (Or.inl
              (by simp [handleCallbackBranch, hauth, hdata, hne, hfind, hack]))))
          | true =>
            cases hh : cb.handler (matchArgOf cb.command d) with
            | ok u =>
              refine Or.inr (Or.inr (Or.inr (Or.inr (Or.inl
                ⟨i, matchArgOf cb.command d, d, ?_⟩))))
              simp [handleCallbackBranch, hauth, hdata, hne, hfind, hack, hh]
            | error u =>
              refine Or.inr (Or.inr (Or.inr (Or.inr (Or.inr
                ⟨i, matchArgOf cb.command d, ?_⟩))))
              simp [handleCallbackBranch, hauth, hdata, hne, hfind, hack, hh]

/-- C6: for an update that is a control activation, whenever the
matched command's handler runs, the acknowledgement of the activation
to the backend is already in the trace right before it; in particular
an exchange resolved by the activation acknowledged it before the
handler ran and before returning. -/
theorem ack_before_handler (C : List TelegramCallback) (U : List Int) (A : String → Bool)
    (u : Update) (q : CallbackQuery)
    (hq : u.callback_query = some q) (hm : u.message = none) :
    (∀ i arg, Action.handlerRun i arg ∈ (processUpdateCore C U A u).1 →
      (processUpdateCore C U A u).1 = [.ackQuery q.id true, .handlerRun i arg]) ∧
    (∀ acts v, processUpdateCore C U A u = (acts, .resolved v) →
      ∃ i arg, acts = [.ackQuery q.id true, .handlerRun i arg]) := by
  rcases handleCallbackBranch_shape C U A q with h | h | h | h | ⟨i, arg, d, h⟩ | ⟨i, arg, h⟩
  · constructor
    · intro i0 arg0 hmem
      simp [processUpdateCore, hq, h] at hmem
    · intro acts v heq
      simp [processUpdateCore, hq, h] at heq
  · constructor
    · intro i0 arg0 hmem
      simp [processUpdateCore, hq, hm, h, handleMessagePart] at hmem
    · intro acts v heq
      simp [processUpdateCore, hq, hm, h, handleMessagePart] at heq
  · constructor
    · intro i0 arg0 hmem
      simp [processUpdateCore, hq, h] at hmem
    · intro acts v heq
      simp [processUpdateCore, hq, h] at heq
  · constructor
    · intro i0 arg0 hmem
      simp [processUpdateCore, hq, h] at hmem
    · intro acts v heq
      simp [processUpdateCore, hq, h] at heq
  · constructor
    · intro i0 arg0 hmem
      simp [processUpdateCore, hq, h] at hmem
      obtain ⟨h1, h2⟩ := hmem
      subst h1
      subst h2
      simp [processUpdateCore, hq, h]
    · intro acts v heq
      simp [processUpdateCore, hq, h] at heq
      exact ⟨i, arg, by simp [← heq.1]⟩
  · constructor
    · intro i0 arg0 hmem
      simp [processUpdateCore, hq, h] at hmem
      obtain ⟨h1, h2⟩ := hmem
      subst h1
      subst h2
      simp [processUpdateCore, hq, h]
    · intro acts v heq
      simp [processUpdateCore, hq, h] at heq

/-- Witness for `ack_before_handler`: on the matched press `yesPress`
the handler runs, and the trace is exactly the acknowledgement followed
by the handler run. -/
theorem ack_before_handler_witness :
    (processUpdateCore [yesCb] [42] (fun _ => true) yesPress).1 =
      [.ackQuery "q1" true, .handlerRun 0 (.s "/yes-123")] := by
  have h := ack_before_handler [yesCb] [42] (fun _ => true) yesPress
    { id := "q1", from_id := 42, data := some "/yes-123" } rfl rfl
  exact h.1 0 (.s "/yes-123") (by decide)

/-- C7: a resolved exchange returns exactly the raw payload that
satisfied a pattern — the raw button-activation payload or the raw
message text — and the matched command's handler receives the match
result computed from that same raw value. -/
theorem raw_payload_returned (C : List TelegramCallback) (U : List Int) (A : String → Bool)
    (u : Update) (acts : List Action) (v : String)
    (h : processUpdateCore C U A u = (acts, .resolved v)) :
    ((∃ q, u.callback_query = some q ∧ q.data = some v) ∨
      (∃ m, u.message = some m ∧ m.text = some v)) ∧
    ∃ i cb, Action.handlerRun i (matchArgOf cb.command v) ∈ acts ∧
      (findWithIdx (cbMatchesCallback v) 0 C = some (i, cb) ∨
        findWithIdx (cbMatchesText v) 0 C = some (i, cb)) := by
  cases hq : u.callback_query with
  | none =>
    have hmsg : handleMessagePart C U u.message = (acts, .resolved v) := by
      simpa [processUpdateCore, hq] using h
    obtain ⟨m, hom, htext, hte, hauth, i, cb, hfind, hh, hacts⟩ :=
      handleMessagePart_resolved C U u.message acts v hmsg
    refine ⟨Or.inr ⟨m, hom, htext⟩, i, cb, ?_, Or.inr hfind⟩
    rw [hacts]
    simp
  | some q =>
    rcases hcb : handleCallbackBranch C U A q with ⟨acts0, r⟩
    cases r with
    | resolved v0 =>
      obtain ⟨hauth, hdata, hne, i, cb, hfind, hack, hh, hacts0⟩ :=
        handleCallbackBranch_resolved C U A q acts0 v0 hcb
      have hv : acts0 = acts ∧ v0 = v := by
        have h2 := h
        simp [processUpdateCore, hq, hcb] at h2
        exact ⟨h2.1, h2.2⟩
      obtain ⟨ha0, hv0⟩ := hv
      subst ha0
      subst hv0
      refine ⟨Or.inl ⟨q, rfl, hdata⟩, i, cb, ?_, Or.inl hfind⟩
      rw [hacts0]
      simp
    | thrown =>
      exfalso
      simp [processUpdateCore, hq, hcb] at h
    | skip =>
      exfalso
      simp [processUpdateCore, hq, hcb] at h
    | fallThrough =>
      rcases hmp : handleMessagePart C U u.message with ⟨acts1, r1⟩
      have hres : acts0 ++ acts1 = acts ∧ r1 = .resolved v := by
        have := h
        simp [processUpdateCore, hq, hcb, hmp] at this
        exact ⟨this.1, this.2⟩
      obtain ⟨hacts01, hr1⟩ := hres
      subst hr1
      obtain ⟨m, hom, htext, hte, hauth, i, cb, hfind, hh, hacts⟩ :=
        handleMessagePart_resolved C U u.message acts1 v hmp
      refine ⟨Or.inr ⟨m, hom, htext⟩, i, cb, ?_, Or.inr hfind⟩
      rw [← hacts01, hacts]
      simp

/-- Witness for `raw_payload_returned`: spec scenario — the passive
regex command `/^\/block\s+(.+)$/` receives the text
"/block bad idea"; the handler gets the match array (capture group
"bad idea") and the resolution payload is the full raw string. -/
theorem raw_payload_returned_witness :
    ((∃ q, blockText.callback_query = some q ∧ q.data = some "/block bad idea") ∨
      (∃ m, blockText.message = some m ∧ m.text = some "/block bad idea")) ∧
    ∃ i cb,
      Action.handlerRun i (matchArgOf cb.command "/block bad idea") ∈
        [Action.handlerRun 0 (MatchArg.arr ["/block bad idea", "bad idea"])] ∧
      (findWithIdx (cbMatchesCallback "/block bad idea") 0 [blockCb] = some (i, cb) ∨
        findWithIdx (cbMatchesText "/block bad idea") 0 [blockCb] = some (i, cb)) := by
  have h := raw_payload_returned [blockCb] [42] (fun _ => true) blockText
    [Action.handlerRun 0 (MatchArg.arr ["/block bad idea", "bad idea"])] "/block bad idea"
    (by simp [processUpdateCore, blockText, handleMessagePart, findWithIdx, cbMatchesText,
      blockCb, blockRegex, blockMatch, matchArgOf])
  exact h

/-- C2: a text longer than the 4096-unit ceiling makes
`sendTelegramMessage` fail immediately with the message-too-long error
and an empty network trace: no `getMe` credential check, no send, no
fetch happens before the failure. -/
theorem ask_too_long (textToSend : String) (callbacks : List TelegramCallback)
    (config : Config) (w : World)
    (h : textToSend.length > TELEGRAM_MAX_LENGTH) :
    sendTelegramMessage textToSend callbacks config w =
      (.tooLong textToSend.length, []) := by
  unfold sendTelegramMessage validateMessageLength
  simp [h]

/-- Witness for `ask_too_long` at a 4097-character text. -/
theorem ask_too_long_witness :
    longText.length > TELEGRAM_MAX_LENGTH ∧
      sendTelegramMessage longText [] DEFAULT_CONFIG quietWorld = (.tooLong 4097, []) := by
  have hl : longText.length > TELEGRAM_MAX_LENGTH := by
    rw [longText_length]
    decide
  refine ⟨hl, ?_⟩
  have h := ask_too_long longText [] DEFAULT_CONFIG quietWorld hl
  rw [longText_length] at h
  exact h

/-- C3: with a positive deadline `D` and a backend that never produces
a matching event, `sendTelegramMessage` fails with a timeout whose
elapsed time lies in `[D, D + p)` for the floor-enforced poll interval
`p`; the deadline check runs at the top of each iteration before the
fetch, so exactly `e / p` fetches were issued. -/
theorem ask_times_out (textToSend : String) (callbacks : List TelegramCallback)
    (config : Config) (w : World)
    (hlen : textToSend.length ≤ TELEGRAM_MAX_LENGTH)
    (hme : w.getMeOk = true)
    (hsend : ∀ uid ∈ config.telegramUserIds, w.sendOk uid = true)
    (hD : 0 < config.telegramTimeoutMs)
    (hnr : ∀ b ∈ w.polls, pollNoResolve callbacks config.telegramUserIds w.ackOk b = true)
    (hfuel : config.telegramTimeoutMs ≤
      w.polls.length * max config.telegramPollIntervalMs 1000) :
    ∃ e : Nat, (sendTelegramMessage textToSend callbacks config w).1 = .timeout e ∧
      config.telegramTimeoutMs ≤ e ∧
      e < config.telegramTimeoutMs + max config.telegramPollIntervalMs 1000 ∧
      countFetch (sendTelegramMessage textToSend callbacks config w).2 *
        max config.telegramPollIntervalMs 1000 = e := by
  obtain ⟨K, hkK, hout, hDK, hKb, hcf⟩ :=
    loopRun_times_out callbacks config.telegramUserIds w.ackOk
      config.telegramTimeoutMs (max config.telegramPollIntervalMs 1000)
      w.polls 0 (primeCursor w.priming) hD hnr (by simpa using hfuel) (Or.inl rfl)
  have hval : validateMessageLength textToSend = .ok () := by
    unfold validateMessageLength
    rw [if_neg (by omega)]
  have hw : sendTelegramMessage textToSend callbacks config w =
      ((loopRun callbacks config.telegramUserIds w.ackOk config.telegramTimeoutMs
          (max config.telegramPollIntervalMs 1000) w.polls 0 (primeCursor w.priming)).1,
        .getMe ::
          ((config.telegramUserIds.map
              (fun uid => .sendMessage uid textToSend (buildKeyboard callbacks))) ++
            .primingFetch ::
              (loopRun callbacks config.telegramUserIds w.ackOk config.telegramTimeoutMs
                (max config.telegramPollIntervalMs 1000) w.polls 0
                (primeCursor w.priming)).2)) := by
    unfold sendTelegramMessage
    rw [hval]
    simp only [hme, not_true_eq_false, if_false]
    rw [sendToAllUsers_ok _ _ _ _ hsend]
  refine ⟨K * max config.telegramPollIntervalMs 1000, ?_, hDK, hKb, ?_⟩
  · rw [hw]
    exact hout
  · rw [hw]
    simp only [countFetch, countFetch_append, countFetch_map_send]
    rw [hcf]
    simp

/-- Witness for `ask_times_out`: deadline 1500 ms, poll interval
1000 ms, two empty polls; the timeout elapsed time, a multiple of the
interval inside [1500, 2500), is exactly 2000 ms. -/
theorem ask_times_out_witness :
    (sendTelegramMessage "hi" [] cfg1500 { quietWorld with polls := [.ok [], .ok []] }).1 =
      .timeout 2000 := by
  obtain ⟨e, he, h1, h2, h3⟩ := ask_times_out "hi" [] cfg1500
    { quietWorld with polls := [.ok [], .ok []] } (by decide) rfl (by decide) (by decide)
    (by decide) (by decide)
  have hmax : max cfg1500.telegramPollIntervalMs 1000 = 1000 := by decide
  have hD : cfg1500.telegramTimeoutMs = 1500 := by decide
  rw [hmax, hD] at h2
  rw [hmax] at h3
  rw [hD] at h1
  have he2 : e = 2000 := by omega
  rw [he2] at he
  exact he

/-- Counterexample to C1 as stated: user 42 presses the matched button
"/yes-123" but the command's handler throws.  The exchange does NOT
resolve with the payload: the error is swallowed by the poll loop's
catch and the run continues until it times out (1000 ms deadline), even
though the activation was acknowledged. -/
theorem handler_error_counterexample :
    (sendTelegramMessage "Approve?" [yesThrowingCb] cfg1000
        { quietWorld with polls := [.ok [yesPress]] }).1 = .timeout 1000 ∧
    (sendTelegramMessage "Approve?" [yesThrowingCb] cfg1000
        { quietWorld with polls := [.ok [yesPress]] }).1 ≠ .success "/yes-123" ∧
    Action.ackQuery "q1" true ∈
      (sendTelegramMessage "Approve?" [yesThrowingCb] cfg1000
        { quietWorld with polls := [.ok [yesPress]] }).2 := by
  decide

/-- C1 as amended: when a matched control activation's handler throws,
the already-performed acknowledgement stays (and is not re-attempted),
the error is caught by the poll loop's catch, and polling simply
continues — the exchange is not resolved with the payload by that
event. -/
theorem handler_error_swallowed (C : List TelegramCallback) (U : List Int)
    (A : String → Bool) (D p k lastId : Nat) (rest : List (Except Unit (List Update)))
    (u : Update) (q : CallbackQuery) (d : String) (i : Nat) (cb : TelegramCallback)
    (hq : u.callback_query = some q)
    (hauth : q.from_id ∈ U)
    (hd : q.data = some d) (hne : d ≠ "")
    (hfind : findWithIdx (cbMatchesCallback d) 0 C = some (i, cb))
    (hack : A q.id = true)
    (hh : cb.handler (matchArgOf cb.command d) = .error ())
    (hnk : ¬ (0 < D ∧ D ≤ k * p)) :
    processUpdateCore C U A u =
      ([.ackQuery q.id true, .handlerRun i (matchArgOf cb.command d)], .thrown) ∧
    (loopRun C U A D p (.ok [u] :: rest) k lastId).1 =
      (loopRun C U A D p rest (k + 1) ((u.update_id).getD lastId)).1 := by
  have hcore : processUpdateCore C U A u =
      ([.ackQuery q.id true, .handlerRun i (matchArgOf cb.command d)], .thrown) := by
    simp [processUpdateCore, hq, handleCallbackBranch, hauth, hd, hne, hfind, hack, hh]
  refine ⟨hcore, ?_⟩
  have hbatch : processBatch C U A lastId [u] =
      ((u.update_id).getD lastId,
        [.ackQuery q.id true, .handlerRun i (matchArgOf cb.command d)], none) := by
    simp [processBatch, hcore]
  simp [loopRun, hnk, hbatch]

/-- Witness for `handler_error_swallowed` at the concrete press
`yesPress` against the throwing command. -/
theorem handler_error_swallowed_witness :
    processUpdateCore [yesThrowingCb] [42] (fun _ => true) yesPress =
      ([.ackQuery "q1" true, .handlerRun 0 (matchArgOf yesThrowingCb.command "/yes-123")],
        .thrown) ∧
    (loopRun [yesThrowingCb] [42] (fun _ => true) 1000 1000 [.ok [yesPress]] 0 0).1 =
      (loopRun [yesThrowingCb] [42] (fun _ => true) 1000 1000 [] 1
        ((yesPress.update_id).getD 0)).1 := by
  exact handler_error_swallowed [yesThrowingCb] [42] (fun _ => true) 1000 1000 0 0 []
    yesPress { id := "q1", from_id := 42, data := some "/yes-123" } "/yes-123" 0
    yesThrowingCb rfl (by decide) rfl (by decide) rfl rfl rfl (by decide)

/-- Counterexample to C8 as stated: draining the stale queue
`[id 5, id 3]` (ids out of order) sets the baseline to 3, the id of the
LAST drained event, not to 5, the highest id among the drained
events. -/
theorem prime_cursor_counterexample :
    primeCursor (.ok [staleHigh, staleLow]) = 3 ∧
      primeCursor (.ok [staleHigh, staleLow]) ≠ 5 := by
  decide

/-- C8 as amended: the priming baseline is the `update_id` of the last
drained event (equal to the highest only when the backend delivers ids
in ascending order), with fallback 0 — which accepts all future
events — when the fetch fails, the queue is empty or the last event
lacks an id; and a failed priming fetch never aborts the exchange: the
run is the one obtained with an empty stale queue. -/
theorem prime_cursor_spec :
    primeCursor (.error ()) = 0 ∧
    primeCursor (.ok []) = 0 ∧
    (∀ (l : List Update) (u : Update) (uid : Nat),
      l.getLast? = some u → u.update_id = some uid → primeCursor (.ok l) = uid) ∧
    (∀ (l : List Update) (u : Update),
      l.getLast? = some u → u.update_id = none → primeCursor (.ok l) = 0) ∧
    (∀ (t : String) (C : List TelegramCallback) (cfg : Config) (w : World),
      w.priming = .error () →
      sendTelegramMessage t C cfg w = sendTelegramMessage t C cfg
        { w with priming := .ok [] }) := by
  refine ⟨rfl, rfl, ?_, ?_, ?_⟩
  · intro l u uid hl hu
    simp [primeCursor, hl, hu]
  · intro l u hl hu
    simp [primeCursor, hl, hu]
  · intro t C cfg w hw
    simp [sendTelegramMessage, hw, primeCursor]

/-- Witness for `prime_cursor_spec`: a queue ending in id 3 primes to
3; a failing priming fetch leaves the outcome of a run identical to the
empty-queue run. -/
theorem prime_cursor_spec_witness :
    primeCursor (.ok [staleHigh, staleLow]) = 3 ∧
    primeCursor (.ok [staleLow, staleNoId]) = 0 ∧
    sendTelegramMessage "hi" [] cfg1000 { quietWorld with priming := .error () } =
      sendTelegramMessage "hi" [] cfg1000 { quietWorld with priming := .ok [] } := by
  have h := prime_cursor_spec
  refine ⟨h.2.2.1 [staleHigh, staleLow] staleLow 3 rfl rfl, ?_, ?_⟩
  · exact h.2.2.2.1 [staleLow, staleNoId] staleNoId rfl rfl
  · exact h.2.2.2.2 "hi" [] cfg1000 { quietWorld with priming := .error () } rfl

/-- Counterexample to C9 as stated: a control activation with an EMPTY
payload from authorized user 42 is skipped by the falsy-payload guard
`if (!callbackData) continue` and is NOT acknowledged (its trace is
empty), although the claim asserts every unmatched authorized
activation — including one with an empty payload — is acknowledged. -/
theorem empty_payload_not_acked :
    processUpdateCore [yesCb] [42] (fun _ => true) emptyPress = ([], .next) ∧
    Action.ackQuery "q2" false ∉
      (processUpdateCore [yesCb] [42] (fun _ => true) emptyPress).1 ∧
    Action.ackQuery "q2" true ∉
      (processUpdateCore [yesCb] [42] (fun _ => true) emptyPress).1 := by
  decide

/-- C9 as amended: every control activation from an authorized
recipient with a NON-EMPTY payload matching no interactive command is
still acknowledged (plain `answerCallbackQuery`) and the loop continues
without resolving; an activation with an absent or empty payload is
skipped without acknowledgement. -/
theorem unmatched_activation_acked (C : List TelegramCallback) (U : List Int)
    (A : String → Bool) (u : Update) (q : CallbackQuery) (d : String) (lastId : Nat)
    (hq : u.callback_query = some q) (hm : u.message = none)
    (hauth : q.from_id ∈ U)
    (hd : q.data = some d) (hne : d ≠ "")
    (hfind : findWithIdx (cbMatchesCallback d) 0 C = none)
    (hack : A q.id = true) :
    processUpdateCore C U A u = ([.ackQuery q.id false], .next) ∧
    (processBatch C U A lastId [u]).2.2 = none := by
  have hcore : processUpdateCore C U A u = ([.ackQuery q.id false], .next) := by
    simp [processUpdateCore, hq, hm, handleCallbackBranch, hauth, hd, hne, hfind, hack,
      handleMessagePart]
  exact ⟨hcore, by simp [processBatch, hcore]⟩

/-- Witness for `unmatched_activation_acked` at the unmatched non-empty
press "/other". -/
theorem unmatched_activation_acked_witness :
    processUpdateCore [yesCb] [42] (fun _ => true) otherPress =
      ([.ackQuery "q4" false], .next) ∧
    (processBatch [yesCb] [42] (fun _ => true) 0 [otherPress]).2.2 = none := by
  exact unmatched_activation_acked [yesCb] [42] (fun _ => true) otherPress
    { id := "q4", from_id := 42, data := some "/other" } "/other" 0
    rfl rfl (by decide) rfl (by decide) rfl rfl

/-- C10: `loadConfig` is total and stable: every failure state of
`./config.json` (absent, unreadable, unparsable, missing required
fields) yields a copy of `DEFAULT_CONFIG` instead of throwing; the
first call caches its result and every later call returns the cached
config whatever the file now holds, until `clearConfigCache` resets the
cache. -/
theorem load_config_total_and_cached :
    loadConfig .absent none = (DEFAULT_CONFIG, some DEFAULT_CONFIG) ∧
    loadConfig .unreadable none = (DEFAULT_CONFIG, some DEFAULT_CONFIG) ∧
    loadConfig .unparsable none = (DEFAULT_CONFIG, some DEFAULT_CONFIG) ∧
    (∀ c : Config, c.logLevel = "" ∨ c.logFile = "" →
      loadConfig (.parsed c) none = (DEFAULT_CONFIG, some DEFAULT_CONFIG)) ∧
    (∀ f : ConfigFile, (loadConfig f none).2 = some (loadConfig f none).1) ∧
    (∀ (c : Config) (f : ConfigFile), loadConfig f (some c) = (c, some c)) ∧
    (∀ oc : Option Config, clearConfigCache oc = none) := by
  refine ⟨rfl, rfl, rfl, ?_, ?_, ?_, ?_⟩
  · intro c hc
    simp [loadConfig, hc]
  · intro f
    cases f with
    | absent => rfl
    | unreadable => rfl
    | unparsable => rfl
    | parsed c =>
      by_cases hc : c.logLevel = "" ∨ c.logFile = ""
      · simp [loadConfig, hc]
      · simp [loadConfig, hc]
  · intro c f
    rfl
  · intro oc
    rfl

/-- Witness for `load_config_total_and_cached`: a parsed config with an
empty `logLevel` falls back to the defaults, and a cached config is
returned untouched whatever the file now holds. -/
theorem load_config_witness :
    loadConfig (.parsed badConfig) none = (DEFAULT_CONFIG, some DEFAULT_CONFIG) ∧
    loadConfig .unparsable (some cfg1000) = (cfg1000, some cfg1000) := by
  have h := load_config_total_and_cached
  exact ⟨h.2.2.2.1 badConfig (Or.inl rfl), h.2.2.2.2.2.1 cfg1000 .unparsable⟩

end Hooks
